import Mathlib

/-!
Verification of the `sup` execution engine (package `sup`): the task builder
(`Stackup.createTasks`), the task executor's prefixing and reap phases
(`Task.do`, `Task.clientsFinish`), the SSH client (`NewSSHClient`,
`SSHClient.parseHost`, `SSHClient.Run`, `SSHClient.Close`), the localhost
client (`LocalhostClient.Signal`), and the CLI host check (`parseArgs`).

Strings are modelled as Lean `String`s; the Go code slices byte arrays, which
coincides with character slicing on the ASCII host/env strings handled here,
so the Go byte-index operations are embedded as `List Char` operations.
External I/O (file reads, the tar child process, SSH dialing, pipe
allocation) is modelled by explicit parameters or result oracles; each such
spot is noted at the definition it concerns.
-/

namespace Sup

/-! ## String helpers (Go `strings` package operations on ASCII data) -/

/-- Go `s[:n]` (byte slicing; ASCII inputs). -/
def strTake (s : String) (n : Nat) : String := String.mk (s.toList.take n)

/-- Go `s[n:]` (byte slicing; ASCII inputs). -/
def strDrop (s : String) (n : Nat) : String := String.mk (s.toList.drop n)

/-- Go `strings.Contains(s, string(c))` for a single character. -/
def strContainsChar (s : String) (c : Char) : Bool := s.toList.contains c

/-- Go `strings.LastIndex(s, string(c))` for a single character:
the index of the last occurrence, or `none` (Go: `-1`). -/
def lastIndexOfChar (s : String) (c : Char) : Option Nat :=
  s.toList.enum.foldl (fun acc p => if p.2 = c then some p.1 else acc) none

/-- Go `strings.Repeat(" ", n)`. -/
def spaces (n : Nat) : String := String.mk (List.replicate n ' ')

/-! ## Data model: commands, tasks, clients -/

/-- One `upload:` record of a command (supfile `Upload` struct). -/
structure Upload where
  Src : String
  Dst : String
  Exc : String
deriving DecidableEq, Repr

/-- The fields of the supfile `Command` struct that `createTasks` reads. -/
structure Command where
  Name : String
  Upload : List Sup.Upload
  Script : String
  Local : String
  Run : String
  Stdin : Bool
  Once : Bool
  Serial : Int
deriving DecidableEq, Repr

/-- The input stream attached to a task: the tar stream of an upload
(`NewTarStreamReader` over the resolved source path and the exclude list),
or the controller's standard input (`os.Stdin`). -/
inductive InputSource where
  | tarStream (resolvedSrc : String) (exc : String)
  | stdin
deriving DecidableEq, Repr

/-- A client a task is bound to: one of the engine's connected clients
(abstract, of type `α`), or the fresh `LocalhostClient` that the `Local`
branch of `createTasks` allocates (carrying its env string). -/
inductive TaskClient (α : Type) where
  | engine (c : α)
  | localhost (env : String)
deriving DecidableEq, Repr

/-- The `Task` struct: command body, optional input stream, bound clients,
TTY flag. -/
structure Task (α : Type) where
  Run : String
  Input : Option InputSource
  Clients : List (TaskClient α)
  TTY : Bool
deriving DecidableEq, Repr

/-! ## tar.go -/

/-- `RemoteTarCommand(dir)` = `fmt.Sprintf("tar -C \"%s\" -xzf -", dir)`. -/
def RemoteTarCommand (dir : String) : String :=
  "tar -C \"" ++ dir ++ "\" -xzf -"

/-! ## Stackup.createTasks (the task builder) -/

/-- The serial fan-out loop shared by the upload, script and remote branches
of `createTasks`:
`for i := 0; i < len(clients); i += serial` slicing `clients[i:min(i+serial,n)]`.
For `serial ≥ 1` this splits the list into successive chunks of `serial`. -/
def serialChunks {α : Type} : List α → Nat → List (List α)
  | [], _ => []
  | c :: cs, s => (c :: cs).take s :: serialChunks (cs.drop (s - 1)) s
termination_by l _ => l.length
decreasing_by simp [List.length_drop]; omega

/-- Client fan-out applied to the upload, script and remote bodies of a
command (`createTasks`): `Once` binds the task to `clients[0]` (a Go index
that panics on an empty slice, modelled as `none`); `Serial > 0` emits one
task per serial chunk; otherwise one task bound to all clients. -/
def fanout {α : Type} (once : Bool) (serial : Int) (clients : List α)
    (task : Task α) : Option (List (Task α)) :=
  if once then
    match clients with
    | [] => none
    | c :: _ => some [{ task with Clients := [TaskClient.engine c] }]
  else if 0 < serial then
    some ((serialChunks clients serial.toNat).map
      (fun chunk => { task with Clients := chunk.map TaskClient.engine }))
  else
    some [{ task with Clients := clients.map TaskClient.engine }]

/-- The task built for one `upload:` record, before fan-out:
`Run = RemoteTarCommand(upload.Dst)`, `Input` = the tar stream over the
resolved source, `TTY = false`. `resolveLocal` models `ResolveLocalPath`
(an external `bash -c` invocation) applied to `upload.Src`. -/
def uploadTask {α : Type} (resolveLocal : String → String) (u : Sup.Upload) :
    Task α :=
  { Run := RemoteTarCommand u.Dst
    Input := some (InputSource.tarStream (resolveLocal u.Src) u.Exc)
    Clients := []
    TTY := false }

/-- The task built for the script body, before fan-out: the file at
`cmd.Script` is read in full into the command body (`readFile` models that
read), `set -x;` is prepended in debug mode, `TTY = true`, and the
controller's stdin is attached when `cmd.Stdin`. -/
def scriptTask {α : Type} (debug : Bool) (readFile : String → String)
    (cmd : Command) : Task α :=
  { Run := (if debug then "set -x;" else "") ++ readFile cmd.Script
    Input := if cmd.Stdin then some InputSource.stdin else none
    Clients := []
    TTY := true }

/-- The single task built for the local body: a fresh `LocalhostClient` with
env extended by `export SUP_HOST="localhost";`, `TTY = true`. -/
def localTask {α : Type} (debug : Bool) (cmd : Command) (env : String) :
    Task α :=
  { Run := (if debug then "set -x;" else "") ++ cmd.Local
    Input := if cmd.Stdin then some InputSource.stdin else none
    Clients := [TaskClient.localhost (env ++ "export SUP_HOST=\"localhost\";")]
    TTY := true }

/-- The task built for the remote (`run:`) body, before fan-out. -/
def runTask {α : Type} (debug : Bool) (cmd : Command) : Task α :=
  { Run := (if debug then "set -x;" else "") ++ cmd.Run
    Input := if cmd.Stdin then some InputSource.stdin else none
    Clients := []
    TTY := true }

/-- `Stackup.createTasks(cmd, clients, env)`: translates one command into
tasks, in the fixed order uploads → script → local → remote. File reads and
the tar child process are I/O, supplied here as the total functions
`resolveLocal` and `readFile` (their Go error paths abort `createTasks`
early and do not interact with the fan-out logic modelled here). The Go
expression `clients[0]` in the `Once` branches panics on an empty client
list; that panic is modelled as `none`. -/
def createTasks {α : Type} (debug : Bool) (cmd : Command) (clients : List α)
    (env : String) (resolveLocal readFile : String → String) :
    Option (List (Task α)) := do
  let uploadLists ← cmd.Upload.mapM
    (fun u => fanout cmd.Once cmd.Serial clients (uploadTask resolveLocal u))
  let scriptList ←
    if cmd.Script ≠ "" then
      fanout cmd.Once cmd.Serial clients (scriptTask debug readFile cmd)
    else some []
  let localList : List (Task α) :=
    if cmd.Local ≠ "" then [localTask debug cmd env] else []
  let runList ←
    if cmd.Run ≠ "" then
      fanout cmd.Once cmd.Serial clients (runTask debug cmd)
    else some []
  return uploadLists.flatten ++ scriptList ++ localList ++ runList

/-! ## cmd/sup/main.go: the host check in parseArgs -/

/-- `ErrNetworkNoHosts` from cmd/sup/main.go. -/
def ErrNetworkNoHosts : String := "No hosts defined for a given network"

/-- The host check of `parseArgs`: a network whose host list is empty is
refused with `ErrNetworkNoHosts` before any task is built. -/
def parseArgsHostCheck (hosts : List String) : Except String (List String) :=
  if hosts.length = 0 then .error ErrNetworkNoHosts else .ok hosts

/-! ## ANSI colors and client prefixes -/

/-- Modelled from the spec: the ANSI color table lives in a repository file
that is not under src/ (the spec lists the "ANSI color table" as an
out-of-scope collaborator providing color strings). A standard ANSI
escape-code table; no claim depends on the concrete entries, only on
`Colors[i % len(Colors)]` being well defined. -/
def Colors : List String :=
  ["\x1b[32m", "\x1b[33m", "\x1b[36m", "\x1b[35m", "\x1b[31m", "\x1b[34m"]

/-- Modelled from the spec: the ANSI reset escape accompanying the color
table outside src/. -/
def ResetColor : String := "\x1b[0m"

/-- `Colors[i%len(Colors)]` as used by `NewSSHClient`. -/
def colorAt (i : Nat) : String :=
  Colors.get ⟨i % Colors.length, Nat.mod_lt i (by decide)⟩

/-- `SSHClient.Prefix()`: returns the colored display string and the
display width `len(host)` where `host = user + "@" + c.host + " | "`. -/
def sshClientPfx (color user host : String) : String × Nat :=
  let h := user ++ "@" ++ host ++ " | "
  (color ++ h ++ ResetColor, h.length)

/-- `LocalhostClient.Prefix()`. -/
def localhostPfx (user : String) : String × Nat :=
  let h := user ++ "@localhost" ++ " | "
  (ResetColor ++ h, h.length)

/-- Display width of an emitted prefix string: the number of characters
left after stripping ANSI escape sequences (`ESC [ ... m`). The flag is
true while inside an escape sequence. -/
def stripAnsiAux : Bool → List Char → List Char
  | _, [] => []
  | true, c :: r => if c = 'm' then stripAnsiAux false r else stripAnsiAux true r
  | false, c :: r =>
      if c = '\x1b' then stripAnsiAux true r else c :: stripAnsiAux false r

/-- Display width (ANSI escapes are zero-width). -/
def displayWidth (s : String) : Nat := (stripAnsiAux false s.toList).length

/-- The `maxLen` computation of `Stackup.Run`: fold over the connected
clients' `Prefix()` results keeping the largest display width. -/
def maxPfxLen (ps : List (String × Nat)) : Nat :=
  ps.foldl (fun m p => if p.2 > m then p.2 else m) 0

/-- The per-client prefix computation at the top of `Task.do`
(`p` is the client's `Prefix()` result):
`if onPrefix { prefix, prefixLen = c.Prefix(); if len(prefix) < maxLen {
prefix = strings.Repeat(" ", maxLen-prefixLen) + prefix } }`.
Note the guard compares the byte length of the colored string `p.1`
against `maxLen`, while the padding amount uses the display width `p.2`. -/
def taskLinePfx (onPfx : Bool) (maxLen : Nat) (p : String × Nat) : String :=
  if onPfx then
    if p.1.length < maxLen then spaces (maxLen - p.2) ++ p.1 else p.1
  else ""

/-! ## Task.clientsFinish (the reap phase) -/

/-- `Task.formatClientPrefix(c, len)` =
`fmt.Sprintf("%"+strconv.Itoa(len)+"s", p)`: right-align `p` in a field of
width `len` (no-op when `p` is already at least that wide). -/
def formatClientPfx (l : Nat) (p : String) : String :=
  if p.length < l then spaces (l - p.length) ++ p else p

/-- The result of `client.Wait()` as classified by `clientsFinish`:
no error, an `*ssh.ExitError` carrying an exit status (with its printed
text), or any other error. -/
inductive WaitResult where
  | ok
  | sshExit (status : Nat) (msg : String)
  | otherErr (msg : String)
deriving DecidableEq, Repr

/-- What the reap fiber does after classifying: return normally (the run
continues) or call `os.Exit(code)`. -/
inductive ReapAction where
  | goOn
  | exitProcess (code : Nat)
deriving DecidableEq, Repr

/-- One client's reap step in `Task.clientsFinish`: on `Wait()` error,
compute the (optional) formatted prefix, then
`if e, ok := err.(*ssh.ExitError); ok && e.ExitStatus() != 15` print
`prefix+e` and exit with that status; otherwise print `prefix+err` and
exit with code 1. Returns the stderr lines printed and the action taken. -/
def clientFinishStep (onPfx : Bool) (l : Nat) (p : String) :
    WaitResult → List String × ReapAction
  | .ok => ([], .goOn)
  | .sshExit s msg =>
      let pfx := if onPfx then formatClientPfx l p else ""
      if s ≠ 15 then ([pfx ++ msg ++ "\n"], .exitProcess s)
      else ([pfx ++ msg ++ "\n"], .exitProcess 1)
  | .otherErr msg =>
      let pfx := if onPfx then formatClientPfx l p else ""
      ([pfx ++ msg ++ "\n"], .exitProcess 1)

/-! ## SSHClient: construction, host parsing, Run, Close -/

/-- The `ErrConnect` error struct. -/
structure ErrConnect where
  User : String
  Host : String
  Reason : String
deriving DecidableEq, Repr

/-- One `sshconfig.SSHHost` alias record. -/
structure SSHHost where
  Host : List String
  HostName : String
  User : String
  Port : Int
  IdentityFile : String
deriving DecidableEq, Repr

/-- The configuration `NewSSHClient` leaves in the `SSHClient` struct:
user, host, env prelude, color, optional identity-file signer. -/
structure SSHClientCfg where
  user : String
  host : String
  env : String
  color : String
  signer : Option String
deriving DecidableEq, Repr

/-- The schema strip at the top of `SSHClient.parseHost`:
`if len(host) > 6 && host[:6] == "ssh://" { host = host[6:] }`. -/
def stripSchema (host : String) : String :=
  if 6 < host.toList.length ∧ strTake host 6 = "ssh://" then strDrop host 6
  else host

/-- The user split of `parseHost`: split at the last `@`
(`user = host[:at]`, `host = host[at+1:]`); no `@` leaves the user empty. -/
def splitAtUser (host : String) : String × String :=
  match lastIndexOfChar host '@' with
  | some i => (strTake host i, strDrop host (i + 1))
  | none => ("", host)

/-- `SSHClient.parseHost(host)`: strip the schema, split off the user part,
default the user to the current OS user (`osUser`; `user.Current()` is
modelled as succeeding), reject a remaining slash with `ErrConnect`, and
append `:22` when no port is present. Returns the resolved (user, host). -/
def parseHost (osUser : String) (host : String) :
    Except ErrConnect (String × String) :=
  let h1 := stripSchema host
  let u0 := (splitAtUser h1).1
  let h2 := (splitAtUser h1).2
  let u := if u0 = "" then osUser else u0
  if strContainsChar h2 '/' then
    .error { User := u, Host := h2, Reason := "unexpected slash in the host URL" }
  else
    let h3 := if strContainsChar h2 ':' then h2 else h2 ++ ":22"
    .ok (u, h3)

/-- `NewSSHClient(host, env, i, sshConfigHosts)`: if the host string matches
an ssh-config alias, adopt its HostName/User/Port/IdentityFile (the private
key read is I/O; the signer is modelled as the identity-file name) and set
`SUP_HOST` to the alias-resolved host; otherwise extend the env prelude
with `export SUP_HOST="<host>";` (note: the raw input string, set before
`parseHost` runs) and parse the host string. -/
def NewSSHClient (osUser : String) (host env : String) (i : Nat)
    (sshConfigHosts : List SSHHost) : Except ErrConnect SSHClientCfg :=
  match sshConfigHosts.find? (fun sh => sh.Host.contains host) with
  | some sh =>
      let chost :=
        if 0 < sh.Port then sh.HostName ++ ":" ++ toString sh.Port
        else sh.HostName
      .ok { user := sh.User
            host := chost
            env := env ++ "export SUP_HOST=\"" ++ chost ++ "\";"
            color := colorAt i
            signer := if sh.IdentityFile = "" then none else some sh.IdentityFile }
  | none =>
      let env' := env ++ "export SUP_HOST=\"" ++ host ++ "\";"
      match parseHost osUser host with
      | .error e => .error e
      | .ok uh =>
          .ok { user := uh.1, host := uh.2, env := env', color := colorAt i,
                signer := none }

/-- What `Stackup.networkHost` does with a non-localhost host. -/
inductive HostAction where
  | create
  | dial
deriving DecidableEq, Repr

/-- `Stackup.networkHost`: construct the SSH client; on a construction
error, report it and return without connecting; otherwise dial
(`Connect` / `ConnectWith`). -/
def networkHostActions (r : Except ErrConnect SSHClientCfg) : List HostAction :=
  match r with
  | .error _ => [HostAction.create]
  | .ok _ => [HostAction.create, HostAction.dial]

/-- The `SSHClient` connection/session state flags plus the env prelude. -/
structure SSHClientSt where
  connOpened : Bool
  sessOpened : Bool
  running : Bool
  env : String
deriving DecidableEq, Repr

/-- `SSHClient.Run(task)` (control flow and the string handed to
`sess.Start`): reject re-entry while running; `openSession` rejects an
already-open session; then (PTY request, pipe allocation and the input
copy are external I/O modelled as succeeding — their failure aborts before
any state is committed) start `task.Run` verbatim when the task carries an
input stream, and `c.env + task.Run` otherwise. Returns the new state and
the started command string. -/
def SSHRun {α : Type} (c : SSHClientSt) (t : Task α) :
    Except String (SSHClientSt × String) :=
  if c.running then .error "Session already running"
  else if c.sessOpened then .error "Session already connected"
  else
    let c' := { c with sessOpened := true }
    match t.Input with
    | some _ => .ok ({ c' with running := true }, t.Run)
    | none => .ok ({ c' with running := true }, c.env ++ t.Run)

/-- The tail of `SSHClient.Close` after the session branch:
`if !c.connOpened { return errors.New(...) }` then close the connection and
clear `connOpened` and `running`. `connCloseErr` is the result of the
underlying `c.conn.Close()`. -/
def sshCloseConnPart (connCloseErr : Option String) (c : SSHClientSt) :
    Option String × SSHClientSt :=
  if !c.connOpened then
    (some "Trying to close the already closed connection", c)
  else
    (connCloseErr, { c with connOpened := false, running := false })

/-- `SSHClient.Close()`: if a session is open, clear `sessOpened` and close
it (`sessCloseErr` is the result of `c.sess.Close()`; a failure returns
immediately), then the connection part. Returns the error returned and the
resulting state. -/
def SSHClose (sessCloseErr connCloseErr : Option String) (c : SSHClientSt) :
    Option String × SSHClientSt :=
  if c.sessOpened then
    let c' := { c with sessOpened := false }
    match sessCloseErr with
    | some e => (some e, c')
    | none => sshCloseConnPart connCloseErr c'
  else sshCloseConnPart connCloseErr c

/-! ## LocalhostClient -/

/-- The `LocalhostClient` state: the child command handle (`c.cmd`, nil
until `Run` assigns it; modelled as the `bash -c` payload it carries), the
`running` flag and the env prelude. -/
structure LocalhostSt where
  cmd : Option String
  running : Bool
  env : String
deriving DecidableEq, Repr

/-- A freshly allocated `LocalhostClient` (Go zero values: nil `cmd`,
`running = false`). -/
def initialLocalhost (env : String) : LocalhostSt :=
  { cmd := none, running := false, env := env }

/-- `LocalhostClient.Run(task)`: reject re-entry; build
`exec.Command("bash", "-c", c.env+task.Run)` and assign `c.cmd` before
starting; `startErr` is the result of `cmd.Start()` (pipe allocation is
modelled as succeeding) — on failure `c.cmd` remains assigned and `running`
stays false; on success `running` is set. -/
def LocalhostRun {α : Type} (startErr : Option String) (c : LocalhostSt)
    (t : Task α) : LocalhostSt × Option String :=
  if c.running then (c, some "Command already running. ")
  else
    let c' := { c with cmd := some (c.env ++ t.Run) }
    match startErr with
    | some e => (c', some e)
    | none => ({ c' with running := true }, none)

/-- The outcome of `LocalhostClient.Signal(sig)`:
`return c.cmd.Process.Signal(sig)` dereferences `c.cmd` — a nil pointer
panic when no command was ever assigned — otherwise forwards the signal. -/
inductive SignalOutcome where
  | nilPanic
  | signalSent (sig : Nat)
deriving DecidableEq, Repr

/-- `LocalhostClient.Signal(sig)`. -/
def LocalhostSignal (c : LocalhostSt) (sig : Nat) : SignalOutcome :=
  match c.cmd with
  | none => .nilPanic
  | some _ => .signalSent sig

/-- A sample command with all four bodies and `once: true`, for concrete
instantiations. -/
def sampleOnceCmd : Command :=
  { Name := "t", Upload := [{ Src := "s", Dst := "d", Exc := "e" }],
    Script := "sc", Local := "lo", Run := "run", Stdin := false,
    Once := true, Serial := 3 }

/-- A sample remote-only command with `serial: 2`, for concrete
instantiations. -/
def sampleSerialCmd : Command :=
  { Name := "t", Upload := [], Script := "", Local := "", Run := "run",
    Stdin := false, Once := false, Serial := 2 }

/-! ## Helper lemmas: serial chunking, fan-out, mapM -/

theorem serialChunks_flatten {α : Type} :
    ∀ (l : List α) (s : Nat), 0 < s → (serialChunks l s).flatten = l := by
  intro l s
  induction l, s using serialChunks.induct with
  | case1 s => intro _; simp [serialChunks]
  | case2 c cs s ih =>
      intro hs
      rw [serialChunks]
      simp only [List.flatten_cons]
      rw [ih hs]
      obtain ⟨k, rfl⟩ : ∃ k, s = k + 1 := ⟨s - 1, by omega⟩
      rw [List.take_succ_cons, Nat.add_sub_cancel, List.cons_append,
        List.take_append_drop]

theorem serialChunks_length {α : Type} :
    ∀ (l : List α) (s : Nat), 0 < s → l ≠ [] →
      (serialChunks l s).length = (l.length + s - 1) / s := by
  intro l s
  induction l, s using serialChunks.induct with
  | case1 s => intro _ h; exact absurd rfl h
  | case2 c cs s ih =>
      intro hs _
      rw [serialChunks]
      simp only [List.length_cons]
      by_cases h : cs.length ≤ s - 1
      · rw [List.drop_eq_nil_of_le h]
        have h1 : cs.length + 1 + s - 1 = cs.length + s := by omega
        simp only [serialChunks, List.length_nil, h1]
        rw [Nat.add_div_right _ hs, Nat.div_eq_of_lt (by omega)]
      · push_neg at h
        have hne : cs.drop (s - 1) ≠ [] := by
          intro hEq
          have hl := List.length_drop (s - 1) cs
          rw [hEq] at hl
          simp at hl
          omega
        rw [ih hs hne, List.length_drop]
        have h2 : cs.length + 1 + s - 1 = (cs.length - (s - 1) + s - 1) + s := by
          omega
        rw [h2, Nat.add_div_right _ hs]

theorem serialChunks_mem {α : Type} :
    ∀ (l : List α) (s : Nat), 0 < s →
      ∀ ch ∈ serialChunks l s, ch ≠ [] ∧ ch.length ≤ s := by
  intro l s
  induction l, s using serialChunks.induct with
  | case1 s => intro _ ch h; simp [serialChunks] at h
  | case2 c cs s ih =>
      intro hs ch h
      rw [serialChunks] at h
      rcases List.mem_cons.mp h with rfl | h2
      · constructor
        · obtain ⟨k, rfl⟩ : ∃ k, s = k + 1 := ⟨s - 1, by omega⟩
          simp [List.take_cons]
        · rw [List.length_take]
          exact min_le_left _ _
      · exact ih hs ch h2

theorem serialChunks_all {α : Type} (l : List α) (s : Nat) (hne : l ≠ [])
    (hle : l.length ≤ s) : serialChunks l s = [l] := by
  cases l with
  | nil => exact absurd rfl hne
  | cons c cs =>
      rw [serialChunks, List.take_of_length_le hle,
        List.drop_eq_nil_of_le (by simp at hle ⊢; omega)]
      simp [serialChunks]

theorem mapM_option_eq_some_map {α β : Type} (f : α → Option β) (g : α → β) :
    ∀ l : List α, (∀ a ∈ l, f a = some (g a)) →
      l.mapM f = some (l.map g) := by
  intro l
  induction l with
  | nil => intro _; rfl
  | cons a as ih =>
      intro h
      rw [List.mapM_cons, h a (List.mem_cons_self a as),
        ih (fun x hx => h x (List.mem_cons_of_mem a hx))]
      rfl

theorem flatten_singletons {α β : Type} (l : List α) (f : α → β) :
    (l.map fun a => [f a]).flatten = l.map f := by
  induction l with
  | nil => rfl
  | cons a as ih => simp [ih]

theorem fanout_once {α : Type} (serial : Int) (c : α) (cs : List α)
    (t : Task α) :
    fanout true serial (c :: cs) t =
      some [{ t with Clients := [TaskClient.engine c] }] := rfl

theorem fanout_serial {α : Type} (N : Nat) (hN : 0 < N) (clients : List α)
    (t : Task α) :
    fanout false (N : Int) clients t =
      some ((serialChunks clients N).map
        fun ch => { t with Clients := ch.map TaskClient.engine }) := by
  simp [fanout, show (0 : Int) < (N : Int) from by exact_mod_cast hN,
    Int.toNat_natCast]

theorem fanout_serial_int {α : Type} (serial : Int) (hpos : 0 < serial)
    (clients : List α) (t : Task α) :
    fanout false serial clients t =
      some ((serialChunks clients serial.toNat).map
        fun ch => { t with Clients := ch.map TaskClient.engine }) := by
  simp [fanout, hpos]

theorem fanout_noserial {α : Type} (serial : Int) (hs : serial ≤ 0)
    (clients : List α) (t : Task α) :
    fanout false serial clients t =
      some [{ t with Clients := clients.map TaskClient.engine }] := by
  simp [fanout, show ¬(0 : Int) < serial from by omega]

theorem fanout_isSome {α : Type} (once : Bool) (serial : Int)
    (clients : List α) (t : Task α) (h : clients ≠ []) :
    (fanout once serial clients t).isSome := by
  cases clients with
  | nil => exact absurd rfl h
  | cons c cs =>
      cases once with
      | true => simp [fanout]
      | false => by_cases h0 : (0 : Int) < serial <;> simp [fanout, h0]

/-- The shape of `createTasks` once the fan-out of the command is known:
each of the upload, script and remote bodies contributes one task per
client list in `CL`, the local body contributes its single task. -/
theorem createTasks_char {α : Type} (debug : Bool) (cmd : Command)
    (clients : List α) (env : String) (rl rf : String → String)
    (CL : List (List (TaskClient α)))
    (hF : ∀ t : Task α, fanout cmd.Once cmd.Serial clients t =
      some (CL.map fun cl => { t with Clients := cl })) :
    createTasks debug cmd clients env rl rf = some (
      (cmd.Upload.map fun u =>
        CL.map fun cl => { uploadTask (α := α) rl u with Clients := cl }).flatten
      ++ (if cmd.Script ≠ "" then
            CL.map fun cl => { scriptTask (α := α) debug rf cmd with Clients := cl }
          else [])
      ++ (if cmd.Local ≠ "" then [localTask debug cmd env] else [])
      ++ (if cmd.Run ≠ "" then
            CL.map fun cl => { runTask (α := α) debug cmd with Clients := cl }
          else [])) := by
  have hU : cmd.Upload.mapM
      (fun u => fanout cmd.Once cmd.Serial clients (uploadTask rl u)) =
      some (cmd.Upload.map fun u =>
        CL.map fun cl => { uploadTask (α := α) rl u with Clients := cl }) :=
    mapM_option_eq_some_map _ _ _ (fun u _ => hF _)
  by_cases hs : cmd.Script = "" <;> by_cases hr : cmd.Run = "" <;>
    (simp only [createTasks]; rw [hU]; simp [hF, hs, hr])

/-- Every task produced by `createTasks` is bound to a nonempty client
list, provided every list in the fan-out `CL` is nonempty. -/
theorem createTasks_clients_ne {α : Type} (debug : Bool) (cmd : Command)
    (clients : List α) (env : String) (rl rf : String → String)
    (CL : List (List (TaskClient α)))
    (hF : ∀ t : Task α, fanout cmd.Once cmd.Serial clients t =
      some (CL.map fun cl => { t with Clients := cl }))
    (hCL : ∀ cl ∈ CL, cl ≠ []) :
    ∀ ts, createTasks debug cmd clients env rl rf = some ts →
      ∀ t ∈ ts, t.Clients ≠ [] := by
  intro ts hts t ht
  rw [createTasks_char debug cmd clients env rl rf CL hF] at hts
  cases hts
  simp only [List.mem_append] at ht
  rcases ht with ((hu | hsc) | hlo) | hrn
  · rw [List.mem_flatten] at hu
    obtain ⟨l, hl, htl⟩ := hu
    obtain ⟨u, _, rfl⟩ := List.mem_map.mp hl
    obtain ⟨cl, hcl, rfl⟩ := List.mem_map.mp htl
    exact hCL cl hcl
  · rcases Decidable.em (cmd.Script = "") with h | h
    · simp [h] at hsc
    · simp [h] at hsc
      obtain ⟨cl, hcl, hEq⟩ := hsc
      subst hEq
      simpa using hCL cl hcl
  · rcases Decidable.em (cmd.Local = "") with h | h
    · simp [h] at hlo
    · simp [h] at hlo
      rw [hlo]
      simp [localTask]
  · rcases Decidable.em (cmd.Run = "") with h | h
    · simp [h] at hrn
    · simp [h] at hrn
      obtain ⟨cl, hcl, hEq⟩ := hrn
      subst hEq
      simpa using hCL cl hcl

/-- Projecting the bound client lists out of one body's fan-out tasks. -/
theorem map_clients_char {α : Type} (CL : List (List (TaskClient α)))
    (X : Task α) :
    (CL.map fun cl => ({ X with Clients := cl } : Task α)).map Task.Clients
      = CL := by
  induction CL with
  | nil => rfl
  | cons cl cls ih => simp [ih]

/-- Projecting the bound client lists out of the upload tasks. -/
theorem map_clients_upload {α : Type} (rl : String → String)
    (up : List Sup.Upload) (CL : List (List (TaskClient α))) :
    ((up.map fun u =>
        CL.map fun cl => { uploadTask (α := α) rl u with Clients := cl }).flatten).map
      Task.Clients = (up.map fun _ => CL).flatten := by
  induction up with
  | nil => rfl
  | cons u us ih => simp [ih, Function.comp_def]

/-- On a nonempty client list, `createTasks` succeeds and every produced
task is bound to a nonempty client list, whatever the command. -/
theorem createTasks_good {α : Type} (debug : Bool) (cmd : Command) (c : α)
    (cs : List α) (env : String) (rl rf : String → String) :
    (createTasks debug cmd (c :: cs) env rl rf).isSome
    ∧ ∀ ts, createTasks debug cmd (c :: cs) env rl rf = some ts →
        ∀ t ∈ ts, t.Clients ≠ [] := by
  obtain ⟨CL, hF, hCL⟩ : ∃ CL : List (List (TaskClient α)),
      (∀ t : Task α, fanout cmd.Once cmd.Serial (c :: cs) t =
        some (CL.map fun cl => { t with Clients := cl }))
      ∧ ∀ cl ∈ CL, cl ≠ [] := by
    cases hOnce : cmd.Once with
    | true =>
        refine ⟨[[TaskClient.engine c]], fun t => rfl, ?_⟩
        intro cl hcl
        simp only [List.mem_singleton] at hcl
        subst hcl
        simp
    | false =>
        by_cases hpos : (0 : Int) < cmd.Serial
        · refine ⟨(serialChunks (c :: cs) cmd.Serial.toNat).map
            (List.map TaskClient.engine), fun t => ?_, ?_⟩
          · rw [fanout_serial_int cmd.Serial hpos]
            simp [List.map_map]
          · intro cl hcl
            obtain ⟨ch, hch, hEq⟩ := List.mem_map.mp hcl
            subst hEq
            have hch1 := (serialChunks_mem (c :: cs) cmd.Serial.toNat
              (by omega) ch hch).1
            simpa using hch1
        · refine ⟨[(c :: cs).map TaskClient.engine], fun t => ?_, ?_⟩
          · rw [fanout_noserial cmd.Serial (by omega)]
            simp
          · intro cl hcl
            simp only [List.mem_singleton] at hcl
            subst hcl
            simp
  constructor
  · rw [createTasks_char debug cmd (c :: cs) env rl rf CL hF]
    rfl
  · exact createTasks_clients_ne debug cmd (c :: cs) env rl rf CL hF hCL

/-! ## Theorems -/

/-- C5: `once` overrides `serial`: for every command with `once: true` (any
serial value), each of the upload, script, and remote bodies yields exactly
one task, bound to exactly the first client of the client list (the local
body keeps its own fresh localhost client). -/
theorem C5_once_first_client {α : Type} (debug : Bool) (cmd : Command)
    (c : α) (cs : List α) (env : String) (rl rf : String → String)
    (hOnce : cmd.Once = true) :
    ∃ ts, createTasks debug cmd (c :: cs) env rl rf = some ts ∧
      ts.map Task.Clients =
        (cmd.Upload.map fun _ => [TaskClient.engine c])
        ++ (if cmd.Script ≠ "" then [[TaskClient.engine c]] else [])
        ++ (if cmd.Local ≠ "" then
              [[TaskClient.localhost (env ++ "export SUP_HOST=\"localhost\";")]]
            else [])
        ++ (if cmd.Run ≠ "" then [[TaskClient.engine c]] else []) := by
  have hF : ∀ t : Task α, fanout cmd.Once cmd.Serial (c :: cs) t =
      some ([[TaskClient.engine c]].map fun cl => { t with Clients := cl }) := by
    intro t
    rw [hOnce]
    rfl
  refine ⟨_, createTasks_char debug cmd (c :: cs) env rl rf _ hF, ?_⟩
  by_cases hs : cmd.Script = "" <;> by_cases hl : cmd.Local = "" <;>
    by_cases hr : cmd.Run = "" <;>
      simp [hs, hl, hr, map_clients_upload, map_clients_char,
        flatten_singletons, localTask, Function.comp_def]

/-- C5 witness: the sample `once` command on three clients. -/
theorem C5_once_first_client_witness :
    ∃ ts, createTasks false sampleOnceCmd [10, 20, 30] "E;" id id = some ts ∧
      ts.map Task.Clients =
        (sampleOnceCmd.Upload.map fun _ => [TaskClient.engine 10])
        ++ (if sampleOnceCmd.Script ≠ "" then [[TaskClient.engine 10]] else [])
        ++ (if sampleOnceCmd.Local ≠ "" then
              [[TaskClient.localhost ("E;" ++ "export SUP_HOST=\"localhost\";")]]
            else [])
        ++ (if sampleOnceCmd.Run ≠ "" then [[TaskClient.engine 10]] else []) :=
  C5_once_first_client false sampleOnceCmd 10 [20, 30] "E;" id id rfl

/-- C2: for `once: false` and `serial = N > 0` on `n ≥ 1` clients, each of
the upload, script, and remote bodies is expanded into one task per serial
chunk; the chunks number exactly ⌈n/N⌉, partition the client list in input
order, and each is nonempty of size at most N; `serial ≥ n` gives the single
chunk holding the whole list, and `serial ≤ 0` (including `serial = 0`)
gives a single task bound to all clients. -/
theorem C2_serial_batches {α : Type} (debug : Bool) (cmd : Command)
    (clients : List α) (env : String) (rl rf : String → String) (N : Nat)
    (hOnce : cmd.Once = false) (hSer : cmd.Serial = (N : Int)) (hN : 0 < N)
    (hne : clients ≠ []) :
    (∃ ts, createTasks debug cmd clients env rl rf = some ts ∧
      ts.map Task.Clients =
        (cmd.Upload.map fun _ =>
          (serialChunks clients N).map fun ch => ch.map TaskClient.engine).flatten
        ++ (if cmd.Script ≠ "" then
              (serialChunks clients N).map fun ch => ch.map TaskClient.engine
            else [])
        ++ (if cmd.Local ≠ "" then
              [[TaskClient.localhost (env ++ "export SUP_HOST=\"localhost\";")]]
            else [])
        ++ (if cmd.Run ≠ "" then
              (serialChunks clients N).map fun ch => ch.map TaskClient.engine
            else []))
    ∧ (serialChunks clients N).length = (clients.length + N - 1) / N
    ∧ (serialChunks clients N).flatten = clients
    ∧ (∀ ch ∈ serialChunks clients N, ch ≠ [] ∧ ch.length ≤ N)
    ∧ (clients.length ≤ N → serialChunks clients N = [clients])
    ∧ (∀ cmd2 : Command, cmd2.Once = false → cmd2.Serial ≤ 0 →
        ∃ ts2, createTasks debug cmd2 clients env rl rf = some ts2 ∧
          ts2.map Task.Clients =
            (cmd2.Upload.map fun _ => [clients.map TaskClient.engine]).flatten
            ++ (if cmd2.Script ≠ "" then [clients.map TaskClient.engine] else [])
            ++ (if cmd2.Local ≠ "" then
                  [[TaskClient.localhost (env ++ "export SUP_HOST=\"localhost\";")]]
                else [])
            ++ (if cmd2.Run ≠ "" then [clients.map TaskClient.engine] else [])) := by
  refine ⟨?_, serialChunks_length clients N hN hne,
    serialChunks_flatten clients N hN, serialChunks_mem clients N hN,
    fun hle => serialChunks_all clients N hne hle, ?_⟩
  · have hF : ∀ t : Task α, fanout cmd.Once cmd.Serial clients t =
        some (((serialChunks clients N).map (List.map TaskClient.engine)).map
          fun cl => { t with Clients := cl }) := by
      intro t
      rw [hOnce, hSer, fanout_serial N hN clients t]
      simp [List.map_map]
    refine ⟨_, createTasks_char debug cmd clients env rl rf _ hF, ?_⟩
    by_cases hs : cmd.Script = "" <;> by_cases hl : cmd.Local = "" <;>
      by_cases hr : cmd.Run = "" <;>
        simp [hs, hl, hr, map_clients_upload, map_clients_char, localTask,
          Function.comp_def]
  · intro cmd2 h2Once h2Ser
    have hF : ∀ t : Task α, fanout cmd2.Once cmd2.Serial clients t =
        some ([clients.map TaskClient.engine].map
          fun cl => { t with Clients := cl }) := by
      intro t
      rw [h2Once, fanout_noserial cmd2.Serial h2Ser]
      simp
    refine ⟨_, createTasks_char debug cmd2 clients env rl rf _ hF, ?_⟩
    by_cases hs : cmd2.Script = "" <;> by_cases hl : cmd2.Local = "" <;>
      by_cases hr : cmd2.Run = "" <;>
        simp [hs, hl, hr, map_clients_upload, map_clients_char,
          flatten_singletons, localTask, Function.comp_def]

/-- C2 witness: the sample `serial: 2` command batches 3 clients into
⌈3/2⌉ = 2 chunks. -/
theorem C2_serial_batches_witness :
    (serialChunks ([10, 20, 30] : List Nat) 2).length = (3 + 2 - 1) / 2 :=
  (C2_serial_batches false sampleSerialCmd [10, 20, 30] "E;" id id 2
    rfl rfl (by decide) (by decide)).2.1

/-- C7: a network with zero hosts is refused by `parseArgs` with the
"No hosts defined" error before task building; on any nonempty client list
`createTasks` succeeds (the `clients[0]` indexing of the `once` branches
never hits an empty list) and every produced task is bound to at least one
client. -/
theorem C7_every_task_has_a_client :
    parseArgsHostCheck [] = .error ErrNetworkNoHosts
    ∧ ErrNetworkNoHosts = "No hosts defined for a given network"
    ∧ (∀ hosts hs : List String, parseArgsHostCheck hosts = .ok hs → hosts ≠ [])
    ∧ (∀ (α : Type) (debug : Bool) (cmd : Command) (clients : List α)
        (env : String) (rl rf : String → String), clients ≠ [] →
        (createTasks debug cmd clients env rl rf).isSome
        ∧ ∀ ts, createTasks debug cmd clients env rl rf = some ts →
            ∀ t ∈ ts, t.Clients ≠ []) := by
  refine ⟨rfl, rfl, ?_, ?_⟩
  · intro hosts hs h hnil
    subst hnil
    simp [parseArgsHostCheck, ErrNetworkNoHosts] at h
  · intro α debug cmd clients env rl rf hne
    cases clients with
    | nil => exact absurd rfl hne
    | cons c cs => exact createTasks_good debug cmd c cs env rl rf

/-- C7 witness: the `once` command on one client builds its tasks. -/
theorem C7_every_task_has_a_client_witness :
    (createTasks false sampleOnceCmd [(10 : Nat)] "E;" id id).isSome :=
  (C7_every_task_has_a_client.2.2.2 Nat false sampleOnceCmd [10] "E;" id id
    (by decide)).1

/-- C1: In the reap phase, when a client's Wait() returns an SSH exit error
with status 15, the executor logs a prefixed message and continues — REFUTED:
at the concrete input status 15, `clientsFinish` prints the prefixed message
and then calls `os.Exit(1)`; the action is not "continue". -/
theorem C1_status15_does_not_continue :
    clientFinishStep true 6 "p | " (.sshExit 15 "Process exited with status 15") =
      (["  p | Process exited with status 15\n"], ReapAction.exitProcess 1)
    ∧ ReapAction.exitProcess 1 ≠ ReapAction.goOn := by
  decide

/-- C1 (amended): on an SSH exit error with status 15 the reap phase logs a
prefixed message and terminates the process with exit code 1 (the same path
as any non-SSH error); any other non-zero SSH exit status terminates the
process with that status; any other error terminates it with exit code 1;
in particular no Wait() result ever makes the process exit with status 15. -/
theorem C1_reap_classification (l : Nat) (p m : String) :
    clientFinishStep true l p (.sshExit 15 m) =
      ([formatClientPfx l p ++ m ++ "\n"], ReapAction.exitProcess 1)
    ∧ (∀ s : Nat, s ≠ 15 →
        clientFinishStep true l p (.sshExit s m) =
          ([formatClientPfx l p ++ m ++ "\n"], ReapAction.exitProcess s))
    ∧ clientFinishStep true l p (.otherErr m) =
        ([formatClientPfx l p ++ m ++ "\n"], ReapAction.exitProcess 1)
    ∧ (∀ (onp : Bool) (w : WaitResult),
        (clientFinishStep onp l p w).2 ≠ ReapAction.exitProcess 15) := by
  refine ⟨by simp [clientFinishStep], fun s hs => by simp [clientFinishStep, hs], by simp [clientFinishStep], ?_⟩
  intro onp w
  cases w with
  | ok => simp [clientFinishStep]
  | sshExit s msg =>
      by_cases h : s = 15
      · simp [clientFinishStep, h]
      · simp [clientFinishStep, h]
  | otherErr msg => simp [clientFinishStep]

/-- C1 witness: the non-15 branch applied at status 7. -/
theorem C1_reap_classification_witness :
    clientFinishStep true 6 "p | " (.sshExit 7 "exit 7") =
      ([formatClientPfx 6 "p | " ++ "exit 7" ++ "\n"], ReapAction.exitProcess 7) :=
  (C1_reap_classification 6 "p | " "exit 7").2.1 7 (by decide)

/-- C3: the env prelude is embedded into every remote command regardless of
an input stream — REFUTED: at this concrete input, a task carrying an input
stream is started as `task.Run` verbatim, without the env prelude. -/
theorem C3_input_task_skips_env :
    SSHRun (SSHClientSt.mk true false false "export FOO=\"bar\";")
        ({ Run := "ls", Input := some InputSource.stdin,
           Clients := ([] : List (TaskClient Nat)), TTY := false }) =
      .ok (SSHClientSt.mk true true true "export FOO=\"bar\";", "ls")
    ∧ ("ls" : String) ≠ "export FOO=\"bar\";" ++ "ls" := by
  constructor
  · rfl
  · decide

/-- C3 (amended): for a non-running SSH client with no open session,
`Run` starts `c.env + task.Run` when the task has no input stream, and
`task.Run` alone (no env prelude) when it carries one. -/
theorem C3_started_string {α : Type} (c : SSHClientSt) (t : Task α)
    (h1 : c.running = false) (h2 : c.sessOpened = false) :
    SSHRun c t =
      .ok ({ c with sessOpened := true, running := true },
        match t.Input with
        | some _ => t.Run
        | none => c.env ++ t.Run) := by
  cases t with
  | mk r i cl tty => cases i <;> simp [SSHRun, h1, h2]

/-- C3 witness: a no-input task gets the prelude, at a concrete client. -/
theorem C3_started_string_witness :
    SSHRun (SSHClientSt.mk true false false "export FOO=\"bar\";")
        ({ Run := "ls", Input := none,
           Clients := ([] : List (TaskClient Nat)), TTY := true }) =
      .ok (SSHClientSt.mk true true true "export FOO=\"bar\";",
        "export FOO=\"bar\";" ++ "ls") :=
  C3_started_string (SSHClientSt.mk true false false "export FOO=\"bar\";")
    ({ Run := "ls", Input := none,
       Clients := ([] : List (TaskClient Nat)), TTY := true }) rfl rfl

/-- C4: `ssh://user@h:22` and `user@h` produce identical client
configurations — REFUTED: at this concrete input the two configurations
differ, because `SUP_HOST` is set from the raw host string before parsing. -/
theorem C4_configs_differ :
    NewSSHClient "osu" "ssh://user@h:22" "" 1 [] =
      .ok { user := "user", host := "h:22",
            env := "export SUP_HOST=\"ssh://user@h:22\";",
            color := colorAt 1, signer := none }
    ∧ NewSSHClient "osu" "user@h" "" 1 [] =
      .ok { user := "user", host := "h:22",
            env := "export SUP_HOST=\"user@h\";",
            color := colorAt 1, signer := none }
    ∧ ({ user := "user", host := "h:22",
         env := "export SUP_HOST=\"ssh://user@h:22\";",
         color := colorAt 1, signer := none } : SSHClientCfg) ≠
      { user := "user", host := "h:22",
        env := "export SUP_HOST=\"user@h\";",
        color := colorAt 1, signer := none } := by
  refine ⟨rfl, rfl, ?_⟩
  decide

/-- C4 (amended): for a host string not matching an ssh-config alias,
construction parses `[ssh://][user@]host[:port]` with user defaulting to
the current OS user and port to 22 — so `ssh://user@h:22` and `user@h`
agree on user, host, color and signer — but the env prelude is extended
with `export SUP_HOST="<raw host string>";` (the unparsed input), so the
two host strings yield different env preludes, hence different client
configurations. -/
theorem C4_host_parsing (osUser env : String) (i : Nat) :
    (NewSSHClient osUser "ssh://user@h:22" env i [] =
      .ok { user := "user", host := "h:22",
            env := env ++ "export SUP_HOST=\"ssh://user@h:22\";",
            color := colorAt i, signer := none })
    ∧ (NewSSHClient osUser "user@h" env i [] =
      .ok { user := "user", host := "h:22",
            env := env ++ "export SUP_HOST=\"user@h\";",
            color := colorAt i, signer := none })
    ∧ ("export SUP_HOST=\"ssh://user@h:22\";" : String) ≠
        "export SUP_HOST=\"user@h\";"
    ∧ (∀ h : String, stripSchema h = h → lastIndexOfChar h '@' = none →
        strContainsChar h '/' = false → strContainsChar h ':' = false →
        parseHost osUser h = .ok (osUser, h ++ ":22")) := by
  have hp1 : parseHost osUser "ssh://user@h:22" = .ok ("user", "h:22") := by
    simp [parseHost,
      show stripSchema "ssh://user@h:22" = "user@h:22" from by decide,
      show splitAtUser "user@h:22" = ("user", "h:22") from by decide,
      show (("user" : String) = "") = False from by decide,
      show strContainsChar "h:22" '/' = false from by decide,
      show strContainsChar "h:22" ':' = true from by decide]
  have hp2 : parseHost osUser "user@h" = .ok ("user", "h:22") := by
    simp [parseHost,
      show stripSchema "user@h" = "user@h" from by decide,
      show splitAtUser "user@h" = ("user", "h") from by decide,
      show (("user" : String) = "") = False from by decide,
      show strContainsChar "h" '/' = false from by decide,
      show strContainsChar "h" ':' = false from by decide,
      show ("h" ++ ":22" : String) = "h:22" from by decide]
  have henv1 : ("export SUP_HOST=\"" ++ ("ssh://user@h:22" ++ "\";") : String) =
      "export SUP_HOST=\"ssh://user@h:22\";" := by decide
  have henv2 : ("export SUP_HOST=\"" ++ ("user@h" ++ "\";") : String) =
      "export SUP_HOST=\"user@h\";" := by decide
  refine ⟨?_, ?_, by decide, ?_⟩
  · simp [NewSSHClient, hp1, String.append_assoc, henv1]
  · simp [NewSSHClient, hp2, String.append_assoc, henv2]
  · intro h hs ha hslash hcolon
    simp [parseHost, splitAtUser, hs, ha, hslash, hcolon]

/-- C4 witness: the defaulting conjunct applied at the bare host `h`. -/
theorem C4_host_parsing_witness :
    parseHost "osu" "h" = .ok ("osu", "h" ++ ":22") :=
  (C4_host_parsing "osu" "" 1).2.2.2 "h" (by decide) (by decide) (by decide)
    (by decide)

/-- C6: with prefixing enabled every stdout line's prefix has display width
exactly `maxLen` — the code misses this. At the failing input (one client of
display width 6 whose colored prefix is 15 bytes, one of display width 12,
so `maxLen = 12`), the `Task.do` guard `len(prefix) < maxLen` compares the
colored byte length 15 against 12, skips the left padding, and emits a
prefix of display width 6 ≠ 12. The padding amount `maxLen-prefixLen` is
computed from the display width, so the guard mixing in the colored byte
length is the slip. -/
theorem C6_padding_skipped :
    maxPfxLen [sshClientPfx "\x1b[32m" "a" "b",
               sshClientPfx "\x1b[33m" "u" "hostxyz"] = 12
    ∧ (sshClientPfx "\x1b[32m" "a" "b").1.length = 15
    ∧ (sshClientPfx "\x1b[32m" "a" "b").2 = 6
    ∧ taskLinePfx true 12 (sshClientPfx "\x1b[32m" "a" "b") =
        (sshClientPfx "\x1b[32m" "a" "b").1
    ∧ displayWidth (taskLinePfx true 12 (sshClientPfx "\x1b[32m" "a" "b")) = 6
    ∧ (6 : Nat) ≠ 12 := by
  decide

/-- C8: Close on a client whose connection is not open returns the error and
leaves the state unchanged; on an open connection it clears `connOpened`,
`sessOpened` and `running` — the second half is REFUTED at a concrete input:
with an open session whose `sess.Close()` fails, `Close` returns early and
`connOpened` (and `running`) stay set. -/
theorem C8_open_conn_not_cleared :
    SSHClose (some "session close failed") none
        (SSHClientSt.mk true true true "") =
      (some "session close failed", SSHClientSt.mk true false true "")
    ∧ (SSHClientSt.mk true false true "").connOpened ≠ false := by
  decide

/-- C8 (amended): Close is not idempotent — on a client whose connection is
not open and whose session flag is down (never connected, or already
closed) it returns "Trying to close the already closed connection" and
leaves the state unchanged. When the connection is open: with no open
session it clears `connOpened` and `running`; with an open session whose
close fails it returns that error having cleared only `sessOpened`;
otherwise it clears all three flags. -/
theorem C8_close_characterization (c : SSHClientSt)
    (sErr cErr : Option String) :
    (c.connOpened = false → c.sessOpened = false →
      SSHClose sErr cErr c =
        (some "Trying to close the already closed connection", c))
    ∧ (c.connOpened = true → c.sessOpened = false →
      SSHClose sErr cErr c =
        (cErr, { c with connOpened := false, running := false }))
    ∧ (∀ e, c.sessOpened = true → sErr = some e →
      SSHClose sErr cErr c = (some e, { c with sessOpened := false }))
    ∧ (c.connOpened = true → c.sessOpened = true → sErr = none →
      SSHClose sErr cErr c =
        (cErr, { c with connOpened := false, sessOpened := false,
                        running := false })) := by
  refine ⟨fun h1 h2 => ?_, fun h1 h2 => ?_, fun e h1 h2 => ?_,
    fun h1 h2 h3 => ?_⟩
  · simp [SSHClose, sshCloseConnPart, h1, h2]
  · simp [SSHClose, sshCloseConnPart, h1, h2]
  · simp [SSHClose, h1, h2]
  · simp [SSHClose, sshCloseConnPart, h1, h2, h3]

/-- C8 witness: closing a never-connected client at a concrete state. -/
theorem C8_close_characterization_witness :
    SSHClose none none (SSHClientSt.mk false false false "E;") =
      (some "Trying to close the already closed connection",
        SSHClientSt.mk false false false "E;") :=
  (C8_close_characterization (SSHClientSt.mk false false false "E;")
    none none).1 rfl rfl

/-- C9: a host string (not matching an ssh-config alias) that still contains
a slash after the `ssh://` prefix and the user part are stripped makes
construction fail with `ErrConnect` whose reason is "unexpected slash in
the host URL", and `networkHost` does not dial. -/
theorem C9_slash_rejected (osUser host env : String) (i : Nat)
    (sshConfigHosts : List SSHHost)
    (hAlias : sshConfigHosts.find? (fun sh => sh.Host.contains host) = none)
    (hSlash : strContainsChar (splitAtUser (stripSchema host)).2 '/' = true) :
    NewSSHClient osUser host env i sshConfigHosts =
      .error { User := if (splitAtUser (stripSchema host)).1 = "" then osUser
                       else (splitAtUser (stripSchema host)).1
               Host := (splitAtUser (stripSchema host)).2
               Reason := "unexpected slash in the host URL" }
    ∧ networkHostActions (NewSSHClient osUser host env i sshConfigHosts) =
        [HostAction.create] := by
  have hp : parseHost osUser host =
      .error { User := if (splitAtUser (stripSchema host)).1 = "" then osUser
                       else (splitAtUser (stripSchema host)).1
               Host := (splitAtUser (stripSchema host)).2
               Reason := "unexpected slash in the host URL" } := by
    simp [parseHost, hSlash]
  have hn : NewSSHClient osUser host env i sshConfigHosts =
      .error { User := if (splitAtUser (stripSchema host)).1 = "" then osUser
                       else (splitAtUser (stripSchema host)).1
               Host := (splitAtUser (stripSchema host)).2
               Reason := "unexpected slash in the host URL" } := by
    unfold NewSSHClient
    rw [hAlias, hp]
  exact ⟨hn, by simp [networkHostActions, hn]⟩

/-- C9 witness: the concrete host `user@h/x`. -/
theorem C9_slash_rejected_witness :
    NewSSHClient "osu" "user@h/x" "" 1 [] =
      .error { User := if (splitAtUser (stripSchema "user@h/x")).1 = ""
                       then "osu" else (splitAtUser (stripSchema "user@h/x")).1
               Host := (splitAtUser (stripSchema "user@h/x")).2
               Reason := "unexpected slash in the host URL" }
    ∧ networkHostActions (NewSSHClient "osu" "user@h/x" "" 1 []) =
        [HostAction.create] :=
  C9_slash_rejected "osu" "user@h/x" "" 1 [] rfl (by decide)

/-- C10: calling Signal on a LocalhostClient before a successful Run
dereferences the nil `c.cmd` handle and panics rather than returning an
error: every state with no command handle assigned — in particular a
freshly allocated client — makes `Signal` hit the nil dereference. -/
theorem C10_signal_before_run :
    (∀ (c : LocalhostSt) (sig : Nat), c.cmd = none →
      LocalhostSignal c sig = SignalOutcome.nilPanic)
    ∧ (∀ (env : String) (sig : Nat),
      LocalhostSignal (initialLocalhost env) sig = SignalOutcome.nilPanic) := by
  refine ⟨fun c sig h => ?_, fun env sig => rfl⟩
  simp [LocalhostSignal, h]

/-- C10 witness: a freshly allocated localhost client panics on Signal. -/
theorem C10_signal_before_run_witness :
    LocalhostSignal (LocalhostSt.mk none false "E;") 2 =
      SignalOutcome.nilPanic :=
  C10_signal_before_run.1 (LocalhostSt.mk none false "E;") 2 rfl

end Sup
